import Mathlib

/-!
Verification of the NLP_2025Z multi-agent pipeline orchestrator.

We shallowly embed the routing-relevant parts of the repository:
`src/core/orchestrator.py` (sequential pipeline), `src/core/orchestrator_parallel.py`
(parallel pipeline), `src/core/state.py` (the state record), and
`src/agents/critic.py` (decision parsing).  Python strings are modelled as
`List Char`; dictionaries of state fields as functions `String → Option V`.
-/

namespace NLP2025

/-! ### Python string primitives -/

/-- Python whitespace characters recognised by `str.strip` / regex `\s` (ASCII range). -/
def isPySpace (c : Char) : Bool :=
  c = ' ' || c = '\t' || c = '\n' || c = '\r' || c = '\x0b' || c = '\x0c'

/-- Python `str.upper` on ASCII content: uppercase each character. -/
def pyUpper (s : List Char) : List Char := s.map Char.toUpper

/-- Python `str.strip`: drop whitespace from both ends. -/
def pyStrip (s : List Char) : List Char :=
  ((s.dropWhile isPySpace).reverse.dropWhile isPySpace).reverse

/-- Python substring test `needle in haystack`. -/
def containsSub (needle : List Char) : List Char → Bool
  | [] => needle.isEmpty
  | c :: rest => needle.isPrefixOf (c :: rest) || containsSub needle rest

/-! ### Decision normalization — `Orchestrator._normalize_decision`
(identical bodies in `src/core/orchestrator.py` lines 73-80 and
`src/core/orchestrator_parallel.py` lines 72-79). -/

/-- Model of `Orchestrator._normalize_decision`: uppercase and strip the raw decision,
then test keyword containment in source order; every fall-through returns
`AMBIGUOUS`.  The argument is the raw decision string already extracted from
the critic result dict. -/
def normalizeDecision (rawDecision : List Char) : List Char :=
  let d := pyStrip (pyUpper rawDecision)
  if containsSub "ACCEPT".data d then "ACCEPT".data
  else if containsSub "RERUN".data d || containsSub "REGENERATE".data d then "RERUN".data
  else if containsSub "REJECT".data d then "REJECT".data
  else if containsSub "AMBIGUOUS".data d then "AMBIGUOUS".data
  else "AMBIGUOUS".data

/-- The keyword tests `_normalize_decision` performs, disjoined: a raw label is
recognised iff its uppercased, stripped form contains one of the five keywords
the source checks for. -/
def isRecognized (rawDecision : List Char) : Bool :=
  let d := pyStrip (pyUpper rawDecision)
  containsSub "ACCEPT".data d || containsSub "RERUN".data d ||
    containsSub "REGENERATE".data d || containsSub "REJECT".data d ||
    containsSub "AMBIGUOUS".data d

example : normalizeDecision "MAYBE".data = "AMBIGUOUS".data := by decide
example : normalizeDecision " rerun ".data = "RERUN".data := by decide
example : normalizeDecision "REGENERATE".data = "RERUN".data := by decide
example : normalizeDecision "".data = "AMBIGUOUS".data := by decide

/-! ### Sequential orchestrator — `src/core/orchestrator.py` -/

/-- Model of `Orchestrator.MAX_RERUNS` (same value in both orchestrator classes). -/
def MAX_RERUNS : Nat := 2

/-- The routing-relevant fields of `GraphState` (`src/core/state.py`) written by
`_node_critic`: `rerun_count`, `do_rerun`, `route_decision`, `critic_decision`. -/
structure SeqSt where
  rerun_count : Nat
  do_rerun : Bool
  route_decision : List Char
  critic_decision : List Char
deriving DecidableEq, Repr

/-- The initial state seeded by `Orchestrator.run`: `rerun_count = 0`; the other
fields are absent, so `state.get("do_rerun")` is falsy and the decision fields
read as empty. -/
def initialSeq : SeqSt :=
  { rerun_count := 0, do_rerun := false, route_decision := [], critic_decision := [] }

/-- Model of `Orchestrator._node_critic` (lines 82-102), routing-relevant part: the raw
critic verdict is normalized, `needs_correction` tests membership in
`["RERUN", "REJECT", "AMBIGUOUS"]`, `do_rerun` additionally requires
`rerun_count < MAX_RERUNS`, and `rerun_count` is incremented exactly when
`do_rerun` holds. -/
def nodeCriticStep (rawVerdict : List Char) (st : SeqSt) : SeqSt :=
  let d := normalizeDecision rawVerdict
  let needs := decide (d ∈ ["RERUN".data, "REJECT".data, "AMBIGUOUS".data])
  let dr := needs && decide (st.rerun_count < MAX_RERUNS)
  { rerun_count := if dr then st.rerun_count + 1 else st.rerun_count
    do_rerun := dr
    route_decision := d
    critic_decision := d }

/-- Model of `Orchestrator._route_after_critic` (lines 124-127): `report_draft` when
`state.get("do_rerun")` is truthy, else `report_final`. -/
def routeAfterCritic (st : SeqSt) : List Char :=
  if st.do_rerun then "report_draft".data else "report_final".data

/-- Declared label map of the conditional edge after `critic` in
`Orchestrator._build` (lines 139-146). -/
def labelsAfterCritic : List (List Char) := ["report_draft".data, "report_final".data]

/-- Node-visit trace of the cyclic part of the sequential graph
(`report_draft → critic → (report_draft | report_final)`), driven by the
stream of raw critic verdicts.  Each iteration visits `report_draft` then
`critic`; the conditional edge then either closes the cycle or moves to the
terminal `report_final`.  An exhausted verdict stream ends the trace (a
modelling device only: theorems supply enough verdicts). -/
def seqLoop : List (List Char) → SeqSt → List (List Char)
  | [], _ => []
  | v :: vs, st =>
    let st' := nodeCriticStep v st
    "report_draft".data :: "critic".data ::
      (if routeAfterCritic st' = "report_draft".data then seqLoop vs st'
       else ["report_final".data])

/-- Full node-visit trace of a sequential run, from the entry stage:
`analyst → visualizer → (cycle part)` per `Orchestrator._build`. -/
def seqTrace (verdicts : List (List Char)) : List (List Char) :=
  "analyst".data :: "visualizer".data :: seqLoop verdicts initialSeq

/-- The sequence of states produced by successive `critic` invocations in a
sequential run (the loop stops when routing leaves the cycle). -/
def seqStates : List (List Char) → SeqSt → List SeqSt
  | [], _ => []
  | v :: vs, st =>
    let st' := nodeCriticStep v st
    st' :: (if st'.do_rerun then seqStates vs st' else [])

/-! ### Parallel orchestrator — `src/core/orchestrator_parallel.py` -/

/-- The routing-relevant fields of `GraphParallelState` (`src/core/state.py`)
written by the two critic nodes. -/
structure ParSt where
  vis_rerun_count : Nat
  rep_rerun_count : Nat
  vis_do_rerun : Bool
  rep_do_rerun : Bool
  vis_critic_decision : List Char
  rep_critic_decision : List Char
deriving DecidableEq, Repr

/-- The initial parallel state seeded by `Orchestrator.run`
(orchestrator_parallel.py lines 211-217): both rerun counters 0, the
`do_rerun` flags absent (falsy). -/
def initialPar : ParSt :=
  { vis_rerun_count := 0, rep_rerun_count := 0, vis_do_rerun := false,
    rep_do_rerun := false, vis_critic_decision := [], rep_critic_decision := [] }

/-- Model of `Orchestrator._node_critic_vis` (lines 81-104), routing-relevant part:
identical arithmetic to the sequential critic, on the `vis_`-prefixed fields. -/
def nodeCriticVisStep (rawVerdict : List Char) (st : ParSt) : ParSt :=
  let d := normalizeDecision rawVerdict
  let needs := decide (d ∈ ["RERUN".data, "REJECT".data, "AMBIGUOUS".data])
  let dr := needs && decide (st.vis_rerun_count < MAX_RERUNS)
  { st with
    vis_rerun_count := if dr then st.vis_rerun_count + 1 else st.vis_rerun_count
    vis_do_rerun := dr
    vis_critic_decision := d }

/-- Model of `Orchestrator._node_critic_rep` (lines 106-129), routing-relevant part:
identical arithmetic on the `rep_`-prefixed fields. -/
def nodeCriticRepStep (rawVerdict : List Char) (st : ParSt) : ParSt :=
  let d := normalizeDecision rawVerdict
  let needs := decide (d ∈ ["RERUN".data, "REJECT".data, "AMBIGUOUS".data])
  let dr := needs && decide (st.rep_rerun_count < MAX_RERUNS)
  { st with
    rep_rerun_count := if dr then st.rep_rerun_count + 1 else st.rep_rerun_count
    rep_do_rerun := dr
    rep_critic_decision := d }

/-- Model of `Orchestrator._route_vis` (lines 153-156). -/
def routeVis (st : ParSt) : List Char :=
  if st.vis_do_rerun then "visualizer".data else "assembler".data

/-- Model of `Orchestrator._route_rep` (lines 158-161). -/
def routeRep (st : ParSt) : List Char :=
  if st.rep_do_rerun then "report_draft".data else "assembler".data

/-- Declared label map of the conditional edge after `critic_vis` in
`_build` (orchestrator_parallel.py lines 176-183). -/
def labelsVisEdge : List (List Char) := ["visualizer".data, "assembler".data]

/-- Declared label map of the conditional edge after `critic_rep` in
`_build` (orchestrator_parallel.py lines 184-191). -/
def labelsRepEdge : List (List Char) := ["report_draft".data, "assembler".data]

/-! ### State-field write sets of the parallel graph's nodes
Each list is the set of keys in the dict returned by the node function in
`src/core/orchestrator_parallel.py` (the critic nodes spread `**res`, whose
keys come from the prefixed `CriticVisAgent`/`CriticRepAgent.run` results in
`src/agents/critic.py` lines 128-134). -/

/-- Keys returned by `_node_analyst` (via `AnalystAgent.run`,
`src/agents/analyst.py` lines 115-119); written upstream of the fork. -/
def analystWrites : List String := ["analysis", "data_path", "viz_plan"]

/-- Keys returned by `_node_visualizer` (orchestrator_parallel.py lines 48-53). -/
def visualizerWrites : List String :=
  ["plots", "plots_desc", "vis_report_path", "vis_report_markdown"]

/-- Keys returned by `_node_critic_vis` (lines 97-104): the spread `**res` keys
plus the explicitly set routing fields. -/
def criticVisWrites : List String :=
  ["vis_critic_llm_decision", "vis_critic_llm_feedback", "vis_critic_llm_raw",
   "vis_route_decision", "vis_do_rerun", "vis_rerun_count",
   "vis_critic_notes", "vis_critic_decision"]

/-- Keys returned by `_node_report_draft` (lines 67-70). -/
def reportDraftWrites : List String := ["rep_report_path", "rep_report_markdown"]

/-- Keys returned by `_node_critic_rep` (lines 122-129). -/
def criticRepWrites : List String :=
  ["rep_critic_llm_decision", "rep_critic_llm_feedback", "rep_critic_llm_raw",
   "rep_route_decision", "rep_do_rerun", "rep_rerun_count",
   "rep_critic_notes", "rep_critic_decision"]

/-- Keys returned by `_node_assembler` (lines 146-150). -/
def assemblerWrites : List String :=
  ["final_report_path", "final_report_markdown", "report_path"]

/-- All keys the visualizer branch writes after the fork
(`visualizer` and `critic_vis` nodes). -/
def visBranchWrites : List String := visualizerWrites ++ criticVisWrites

/-- All keys the reporter branch writes after the fork
(`report_draft` and `critic_rep` nodes). -/
def repBranchWrites : List String := reportDraftWrites ++ criticRepWrites

/-! ### Executor model for the parallel graph
The graph executor itself is the external graph library, not repository code;
its scheduling is modelled from the spec (§4.2, §4.4, §5): branches interleave
arbitrarily, and the join stage is not scheduled until every predecessor
branch has individually reached its pre-join state. -/

/-- Position of a branch inside its `work-stage → critic → (loop | join)`
state machine: about to run its work stage, about to run its critic, or
settled (its router chose `assembler`). -/
inductive Phase where
  | work : Phase
  | crit : Phase
  | done : Phase
deriving DecidableEq, Repr

/-- Modelled from the spec: a configuration of the Executor running the
parallel graph (the Executor is the external graph library; spec §4.2/§4.4).
It holds each branch's position, the routing fields of the State Record, the
pending raw critic verdicts per branch, the set of State Record keys written
so far, and whether the join stage has run. -/
structure ParRun where
  visPhase : Phase
  repPhase : Phase
  st : ParSt
  visVerdicts : List (List Char)
  repVerdicts : List (List Char)
  written : List String
  assemblerDone : Bool

/-- One step of the visualizer branch: in `work`, the `visualizer` node runs
and writes its keys; in `crit`, `_node_critic_vis` consumes the next raw
verdict, writes its keys, and `_route_vis` decides between looping back and
settling; a settled branch does nothing. -/
def stepVisBranch (r : ParRun) : ParRun :=
  match r.visPhase with
  | .work => { r with written := r.written ++ visualizerWrites, visPhase := .crit }
  | .crit =>
    match r.visVerdicts with
    | [] => r
    | v :: vs =>
      let st' := nodeCriticVisStep v r.st
      { r with
        st := st'
        visVerdicts := vs
        written := r.written ++ criticVisWrites
        visPhase := if routeVis st' = "visualizer".data then .work else .done }
  | .done => r

/-- One step of the reporter branch, symmetric to `stepVisBranch` with
`_node_report_draft`, `_node_critic_rep` and `_route_rep`. -/
def stepRepBranch (r : ParRun) : ParRun :=
  match r.repPhase with
  | .work => { r with written := r.written ++ reportDraftWrites, repPhase := .crit }
  | .crit =>
    match r.repVerdicts with
    | [] => r
    | v :: vs =>
      let st' := nodeCriticRepStep v r.st
      { r with
        st := st'
        repVerdicts := vs
        written := r.written ++ criticRepWrites
        repPhase := if routeRep st' = "report_draft".data then .work else .done }
  | .done => r

/-- Modelled from the spec: the join barrier (§4.4).  The `assembler` node runs
only when both branches have settled and it has not run yet; otherwise the
step is a no-op. -/
def stepJoin (r : ParRun) : ParRun :=
  if r.visPhase = .done ∧ r.repPhase = .done ∧ r.assemblerDone = false then
    { r with written := r.written ++ assemblerWrites, assemblerDone := true }
  else r

/-- A scheduling choice: which component the Executor advances next. -/
inductive Choice where
  | vis : Choice
  | rep : Choice
  | join : Choice

/-- Modelled from the spec: one Executor scheduling step of the parallel run
(§5 allows any interleaving of the two branches). -/
def stepPar : Choice → ParRun → ParRun
  | .vis, r => stepVisBranch r
  | .rep, r => stepRepBranch r
  | .join, r => stepJoin r

/-- Modelled from the spec: run the parallel Executor under an arbitrary
schedule. -/
def runPar (cs : List Choice) (r : ParRun) : ParRun :=
  cs.foldl (fun r c => stepPar c r) r

/-- The initial configuration of a parallel run: the entry `analyst` stage has
run (writing its keys), both branches are at their work stage, counters are
seeded to zero as in `Orchestrator.run`. -/
def initParRun (vv rv : List (List Char)) : ParRun :=
  { visPhase := .work, repPhase := .work, st := initialPar,
    visVerdicts := vv, repVerdicts := rv,
    written := analystWrites, assemblerDone := false }

/-! ### State Record merge semantics
`src/core/state.py` declares `GraphState` and `GraphParallelState` as
`total=False` typed dicts with no accumulation annotation on any field, so
every field is a plain last-value channel: merging a stage's returned dict is
key-wise overwrite.  The merge itself is performed by the external graph
library, so it is modelled from the spec (§4.2). -/

/-- The State Record: a mapping from field names to opaque payloads
(spec §3); `none` marks an absent field (`total=False` in `state.py`). -/
def StateRec (V : Type) : Type := String → Option V

/-- A stage's partial update: the fields it adds or overwrites. -/
def PartialUpdate (V : Type) : Type := String → Option V

/-- Modelled from the spec: merging a partial update into the State Record is
key-wise overwrite, last-writer-wins (spec §4.2); a key the update carries
takes the new value, every other key keeps its old value.  This matches
`state.py` declaring no append-style field. -/
def mergeUpdate {V : Type} (u : PartialUpdate V) (s : StateRec V) : StateRec V :=
  fun k =>
    match u k with
    | some v => some v
    | none => s k

/-- Apply a sequence of stage updates to the State Record in invocation
order. -/
def applyUpdates {V : Type} (us : List (PartialUpdate V)) (s : StateRec V) : StateRec V :=
  us.foldl (fun s u => mergeUpdate u s) s

/-- Modelled from the spec: the Executor invoking a sequence of fallible stage
handlers (spec §4.2 Failure / §7): each handler either returns a partial
update, which is merged, or raises; the Executor catches nothing.
`Orchestrator.run` (orchestrator.py lines 155-158, orchestrator_parallel.py
lines 211-217) wraps the library call in no exception handler. -/
def runHandlers {V E : Type} :
    List (StateRec V → Except E (PartialUpdate V)) → StateRec V → Except E (StateRec V)
  | [], s => .ok s
  | h :: t, s =>
    match h s with
    | .error e => .error e
    | .ok u => runHandlers t (mergeUpdate u s)

/-! ### Critic response parsing — `CriticAgent._parse_response`
(`src/agents/critic.py` lines 41-86), decision component.  The regex
`DECISION\s*:?\s*([A-Z]+)` with `re.IGNORECASE` and the `\b<label>\b`
fallback scan are modelled character by character. -/

/-- Model of `CriticAgent.LABELS` (critic.py line 10). -/
def criticLabels : List (List Char) :=
  ["ACCEPT".data, "REJECT".data, "RERUN".data, "AMBIGUOUS".data]

/-- The `aliases` dict of `_parse_response` (critic.py lines 58-61). -/
def criticAliases : List (List Char × List Char) :=
  [("OK".data, "ACCEPT".data), ("YES".data, "ACCEPT".data),
   ("NO".data, "REJECT".data), ("REGENERATE".data, "RERUN".data),
   ("RE-RUN".data, "RERUN".data)]

/-- Remove every (left-to-right, non-overlapping) occurrence of the two-char
pattern `a,b`: Python `text.replace(ab, "")` for a two-character pattern. -/
def removePair (a b : Char) : List Char → List Char
  | [] => []
  | [c] => [c]
  | c :: d :: rest =>
    if c = a && d = b then removePair a b rest
    else c :: removePair a b (d :: rest)

/-- Case-insensitive prefix test (regex literal under `re.IGNORECASE`). -/
def ciPrefix : List Char → List Char → Bool
  | [], _ => true
  | _ :: _, [] => false
  | p :: ps, c :: cs => (Char.toUpper p = Char.toUpper c) && ciPrefix ps cs

/-- Attempt the regex `DECISION\s*:?\s*([A-Z]+)` (with `re.IGNORECASE`) at the
head of `s`, returning the captured group: the literal `DECISION`, optional
whitespace, an optional colon, optional whitespace, then a maximal nonempty
run of ASCII letters (`[A-Z]` matches both cases under `IGNORECASE`). -/
def matchDecisionAt (s : List Char) : Option (List Char) :=
  if ciPrefix "DECISION".data s then
    let afterKey := s.drop 8
    let afterSp1 := afterKey.dropWhile isPySpace
    let afterColon :=
      match afterSp1 with
      | ':' :: t => t
      | _ => afterSp1
    let g := (afterColon.dropWhile isPySpace).takeWhile Char.isAlpha
    if g.isEmpty then none else some g
  else none

/-- Model of `re.search` for the decision pattern: try every start position left to
right, return the first captured group. -/
def searchDecision : List Char → Option (List Char)
  | [] => none
  | c :: rest =>
    match matchDecisionAt (c :: rest) with
    | some g => some g
    | none => searchDecision rest

/-- Regex word character (`\w` over ASCII): alphanumeric or underscore. -/
def isWordChar (c : Char) : Bool := c.isAlphanum || c = '_'

/-- Model of `re.search(r"\b<lab>\b", s)` for an alphabetic label: some occurrence of
`lab` whose neighbours (when they exist) are not word characters.  `prev` is
the character just before the current position (`none` at the string start). -/
def occursAsWord (lab : List Char) : Option Char → List Char → Bool
  | _, [] => false
  | prev, c :: rest =>
    ((match prev with | none => true | some p => !isWordChar p) &&
      lab.isPrefixOf (c :: rest) &&
      (match (c :: rest).drop lab.length with | [] => true | a :: _ => !isWordChar a))
    || occursAsWord lab (some c) rest

/-- The decision component of `CriticAgent._parse_response` (critic.py lines
41-86): strip, remove the markdown tokens `**`, `##`, `__` (in source order),
search for the `DECISION` pattern; on a match, uppercase the group and look it
up in `LABELS` then in `aliases`; otherwise scan the first 200 characters,
uppercased, for a whole-word label in `LABELS` order.  The initial value of
`decision`, kept by every fall-through, is `AMBIGUOUS`. -/
def parseResponseDecision (text : List Char) : List Char :=
  let t := pyStrip text
  let clean := removePair '_' '_' (removePair '#' '#' (removePair '*' '*' t))
  match searchDecision clean with
  | some g =>
    let raw := pyUpper g
    if raw ∈ criticLabels then raw
    else
      match criticAliases.lookup raw with
      | some v => v
      | none => "AMBIGUOUS".data
  | none =>
    let intro := pyUpper (clean.take 200)
    if occursAsWord "ACCEPT".data none intro then "ACCEPT".data
    else if occursAsWord "REJECT".data none intro then "REJECT".data
    else if occursAsWord "RERUN".data none intro then "RERUN".data
    else if occursAsWord "AMBIGUOUS".data none intro then "AMBIGUOUS".data
    else "AMBIGUOUS".data

example : parseResponseDecision "**DECISION**: ACCEPT\nFEEDBACK: good".data
    = "ACCEPT".data := by decide
example : parseResponseDecision "DECISION: RE-RUN".data = "AMBIGUOUS".data := by decide
example : parseResponseDecision "decision ok".data = "ACCEPT".data := by decide
example : parseResponseDecision "I lean to REJECT here".data = "REJECT".data := by decide
example : parseResponseDecision "no verdict given".data = "AMBIGUOUS".data := by decide

/-! ### Helper lemmas -/

lemma nodeCriticStep_count_mono (v : List Char) (st : SeqSt) :
    st.rerun_count ≤ (nodeCriticStep v st).rerun_count ∧
    (nodeCriticStep v st).rerun_count ≤ st.rerun_count + 1 := by
  simp only [nodeCriticStep]
  split <;> omega

lemma nodeCriticStep_count_le (v : List Char) (st : SeqSt)
    (h : st.rerun_count ≤ MAX_RERUNS) :
    (nodeCriticStep v st).rerun_count ≤ MAX_RERUNS := by
  simp only [nodeCriticStep]
  split
  next hdr =>
    simp only [Bool.and_eq_true, decide_eq_true_eq] at hdr
    omega
  next => exact h

lemma nodeCriticStep_forced (v : List Char) (st : SeqSt)
    (h : st.rerun_count = MAX_RERUNS) :
    routeAfterCritic (nodeCriticStep v st) = "report_final".data := by
  simp [nodeCriticStep, routeAfterCritic, h, MAX_RERUNS]

lemma nodeCriticVisStep_count_mono (v : List Char) (st : ParSt) :
    st.vis_rerun_count ≤ (nodeCriticVisStep v st).vis_rerun_count ∧
    (nodeCriticVisStep v st).vis_rerun_count ≤ st.vis_rerun_count + 1 := by
  simp only [nodeCriticVisStep]
  split <;> omega

lemma nodeCriticVisStep_count_le (v : List Char) (st : ParSt)
    (h : st.vis_rerun_count ≤ MAX_RERUNS) :
    (nodeCriticVisStep v st).vis_rerun_count ≤ MAX_RERUNS := by
  simp only [nodeCriticVisStep]
  split
  next hdr =>
    simp only [Bool.and_eq_true, decide_eq_true_eq] at hdr
    omega
  next => exact h

lemma nodeCriticVisStep_forced (v : List Char) (st : ParSt)
    (h : st.vis_rerun_count = MAX_RERUNS) :
    routeVis (nodeCriticVisStep v st) = "assembler".data := by
  simp [nodeCriticVisStep, routeVis, h, MAX_RERUNS]

lemma nodeCriticVisStep_rep_count (v : List Char) (st : ParSt) :
    (nodeCriticVisStep v st).rep_rerun_count = st.rep_rerun_count := by
  simp [nodeCriticVisStep]

lemma nodeCriticRepStep_count_mono (v : List Char) (st : ParSt) :
    st.rep_rerun_count ≤ (nodeCriticRepStep v st).rep_rerun_count ∧
    (nodeCriticRepStep v st).rep_rerun_count ≤ st.rep_rerun_count + 1 := by
  simp only [nodeCriticRepStep]
  split <;> omega

lemma nodeCriticRepStep_count_le (v : List Char) (st : ParSt)
    (h : st.rep_rerun_count ≤ MAX_RERUNS) :
    (nodeCriticRepStep v st).rep_rerun_count ≤ MAX_RERUNS := by
  simp only [nodeCriticRepStep]
  split
  next hdr =>
    simp only [Bool.and_eq_true, decide_eq_true_eq] at hdr
    omega
  next => exact h

lemma nodeCriticRepStep_forced (v : List Char) (st : ParSt)
    (h : st.rep_rerun_count = MAX_RERUNS) :
    routeRep (nodeCriticRepStep v st) = "assembler".data := by
  simp [nodeCriticRepStep, routeRep, h, MAX_RERUNS]

lemma nodeCriticRepStep_vis_count (v : List Char) (st : ParSt) :
    (nodeCriticRepStep v st).vis_rerun_count = st.vis_rerun_count := by
  simp [nodeCriticRepStep]

lemma seqStates_count_le (verdicts : List (List Char)) :
    ∀ st : SeqSt, st.rerun_count ≤ MAX_RERUNS →
      ∀ s ∈ seqStates verdicts st, s.rerun_count ≤ MAX_RERUNS := by
  induction verdicts with
  | nil =>
    intro st _ s hs
    simp [seqStates] at hs
  | cons v vs ih =>
    intro st h s hs
    simp only [seqStates, List.mem_cons] at hs
    rcases hs with rfl | hs
    · exact nodeCriticStep_count_le v st h
    · split at hs
      · exact ih _ (nodeCriticStep_count_le v st h) s hs
      · simp at hs

lemma stepPar_counts (c : Choice) (r : ParRun)
    (h : r.st.vis_rerun_count ≤ MAX_RERUNS ∧ r.st.rep_rerun_count ≤ MAX_RERUNS) :
    (stepPar c r).st.vis_rerun_count ≤ MAX_RERUNS ∧
    (stepPar c r).st.rep_rerun_count ≤ MAX_RERUNS := by
  obtain ⟨vp, rp, st, vv, rv, w, ad⟩ := r
  cases c with
  | vis =>
    cases vp with
    | work => exact h
    | crit =>
      cases vv with
      | nil => exact h
      | cons v vs =>
        refine ⟨nodeCriticVisStep_count_le v st h.1, ?_⟩
        rw [show (stepPar Choice.vis ⟨Phase.crit, rp, st, v :: vs, rv, w, ad⟩).st
              = nodeCriticVisStep v st from rfl, nodeCriticVisStep_rep_count]
        exact h.2
    | done => exact h
  | rep =>
    cases rp with
    | work => exact h
    | crit =>
      cases rv with
      | nil => exact h
      | cons v vs =>
        refine ⟨?_, nodeCriticRepStep_count_le v st h.2⟩
        rw [show (stepPar Choice.rep ⟨vp, Phase.crit, st, vv, v :: vs, w, ad⟩).st
              = nodeCriticRepStep v st from rfl, nodeCriticRepStep_vis_count]
        exact h.1
    | done => exact h
  | join =>
    simp only [stepPar, stepJoin]
    split <;> exact h

lemma runPar_counts (cs : List Choice) (r : ParRun)
    (h : r.st.vis_rerun_count ≤ MAX_RERUNS ∧ r.st.rep_rerun_count ≤ MAX_RERUNS) :
    (runPar cs r).st.vis_rerun_count ≤ MAX_RERUNS ∧
    (runPar cs r).st.rep_rerun_count ≤ MAX_RERUNS := by
  induction cs generalizing r with
  | nil => exact h
  | cons c cs ih => exact ih _ (stepPar_counts c r h)

/-- The join-barrier invariant of a parallel-run configuration: a branch past
its work stage has its work stage's keys in the State Record, and once the
assembler has run, both branches are settled and both sets of keys are
present. -/
def parInv (r : ParRun) : Prop :=
  (r.visPhase ≠ Phase.work → visualizerWrites ⊆ r.written) ∧
  (r.repPhase ≠ Phase.work → reportDraftWrites ⊆ r.written) ∧
  (r.assemblerDone = true →
    r.visPhase = Phase.done ∧ r.repPhase = Phase.done ∧
    visualizerWrites ⊆ r.written ∧ reportDraftWrites ⊆ r.written)

lemma subset_append_grow {α : Type} {l w x : List α} (h : l ⊆ w) : l ⊆ w ++ x :=
  h.trans (List.subset_append_left _ _)

lemma parInv_step (c : Choice) (r : ParRun) (h : parInv r) : parInv (stepPar c r) := by
  obtain ⟨vp, rp, st, vv, rv, w, ad⟩ := r
  obtain ⟨h1, h2, h3⟩ := h
  cases c with
  | vis =>
    cases vp with
    | work =>
      refine ⟨fun _ => List.subset_append_right _ _, fun hr => subset_append_grow (h2 hr), fun hd => ?_⟩
      exact absurd (h3 hd).1 (by simp)
    | crit =>
      cases vv with
      | nil => exact ⟨h1, h2, h3⟩
      | cons v vs =>
        refine ⟨fun _ => subset_append_grow (h1 (by simp)), fun hr => subset_append_grow (h2 hr),
          fun hd => ?_⟩
        obtain ⟨hv, hr, hsv, hsr⟩ := h3 hd
        exact absurd hv (by simp)
    | done => exact ⟨h1, h2, h3⟩
  | rep =>
    cases rp with
    | work =>
      refine ⟨fun hv => subset_append_grow (h1 hv), fun _ => List.subset_append_right _ _, fun hd => ?_⟩
      exact absurd (h3 hd).2.1 (by simp)
    | crit =>
      cases rv with
      | nil => exact ⟨h1, h2, h3⟩
      | cons v vs =>
        refine ⟨fun hv => subset_append_grow (h1 hv), fun _ => subset_append_grow (h2 (by simp)),
          fun hd => ?_⟩
        obtain ⟨hv, hr, hsv, hsr⟩ := h3 hd
        exact absurd hr (by simp)
    | done => exact ⟨h1, h2, h3⟩
  | join =>
    simp only [stepPar, stepJoin]
    split
    next hcond =>
      obtain ⟨hv, hr, -⟩ := hcond
      subst hv; subst hr
      refine ⟨fun _ => subset_append_grow (h1 (by simp)), fun _ => subset_append_grow (h2 (by simp)),
        fun _ => ⟨rfl, rfl, subset_append_grow (h1 (by simp)), subset_append_grow (h2 (by simp))⟩⟩
    next => exact ⟨h1, h2, h3⟩

lemma parInv_run (cs : List Choice) (r : ParRun) (h : parInv r) : parInv (runPar cs r) := by
  induction cs generalizing r with
  | nil => exact h
  | cons c cs ih => exact ih _ (parInv_step c r h)

lemma parInv_init (vv rv : List (List Char)) : parInv (initParRun vv rv) := by
  refine ⟨fun hv => absurd rfl hv, fun hr => absurd rfl hr, fun hd => by simp [initParRun] at hd⟩

/-! ### Claim theorems -/

/-- Claim C1: every branch's retry counter (`rerun_count` / `vis_rerun_count` /
`rep_rerun_count`) starts at 0 in the seeded initial state, is monotone and
grows by at most 1 per critic invocation, never exceeds `MAX_RERUNS` along any
run, and whenever it equals `MAX_RERUNS` the next routing decision for that
branch is the forced finalize successor (`report_final` resp. `assembler`)
regardless of the critic's verdict. -/
theorem retry_budget_invariant :
    (initialSeq.rerun_count = 0 ∧ initialPar.vis_rerun_count = 0 ∧
      initialPar.rep_rerun_count = 0)
    ∧ (∀ (v : List Char) (st : SeqSt),
        st.rerun_count ≤ (nodeCriticStep v st).rerun_count ∧
        (nodeCriticStep v st).rerun_count ≤ st.rerun_count + 1 ∧
        (st.rerun_count = MAX_RERUNS →
          routeAfterCritic (nodeCriticStep v st) = "report_final".data))
    ∧ (∀ (v : List Char) (st : ParSt),
        st.vis_rerun_count ≤ (nodeCriticVisStep v st).vis_rerun_count ∧
        (nodeCriticVisStep v st).vis_rerun_count ≤ st.vis_rerun_count + 1 ∧
        (st.vis_rerun_count = MAX_RERUNS →
          routeVis (nodeCriticVisStep v st) = "assembler".data))
    ∧ (∀ (v : List Char) (st : ParSt),
        st.rep_rerun_count ≤ (nodeCriticRepStep v st).rep_rerun_count ∧
        (nodeCriticRepStep v st).rep_rerun_count ≤ st.rep_rerun_count + 1 ∧
        (st.rep_rerun_count = MAX_RERUNS →
          routeRep (nodeCriticRepStep v st) = "assembler".data))
    ∧ (∀ verdicts, ∀ s ∈ seqStates verdicts initialSeq, s.rerun_count ≤ MAX_RERUNS)
    ∧ (∀ (cs : List Choice) (vv rv : List (List Char)),
        (runPar cs (initParRun vv rv)).st.vis_rerun_count ≤ MAX_RERUNS ∧
        (runPar cs (initParRun vv rv)).st.rep_rerun_count ≤ MAX_RERUNS) := by
  refine ⟨⟨rfl, rfl, rfl⟩, ?_, ?_, ?_, ?_, ?_⟩
  · intro v st
    exact ⟨(nodeCriticStep_count_mono v st).1, (nodeCriticStep_count_mono v st).2,
      nodeCriticStep_forced v st⟩
  · intro v st
    exact ⟨(nodeCriticVisStep_count_mono v st).1, (nodeCriticVisStep_count_mono v st).2,
      nodeCriticVisStep_forced v st⟩
  · intro v st
    exact ⟨(nodeCriticRepStep_count_mono v st).1, (nodeCriticRepStep_count_mono v st).2,
      nodeCriticRepStep_forced v st⟩
  · intro verdicts
    exact seqStates_count_le verdicts initialSeq (by decide)
  · intro cs vv rv
    exact runPar_counts cs _ ⟨Nat.zero_le _, Nat.zero_le _⟩

/-- Witness for C1: at a state whose counter already equals `MAX_RERUNS`, a
`RERUN` verdict is overridden to the forced finalize successor in all three
branches, and the counter produced by the first critic invocation of a run
respects the bound. -/
theorem retry_budget_invariant_checked :
    routeAfterCritic (nodeCriticStep "RERUN".data ⟨2, true, [], []⟩) = "report_final".data ∧
    routeVis (nodeCriticVisStep "RERUN".data ⟨2, 0, true, false, [], []⟩) = "assembler".data ∧
    routeRep (nodeCriticRepStep "RERUN".data ⟨0, 2, false, true, [], []⟩) = "assembler".data ∧
    (nodeCriticStep "RERUN".data initialSeq).rerun_count ≤ MAX_RERUNS :=
  ⟨(retry_budget_invariant.2.1 "RERUN".data ⟨2, true, [], []⟩).2.2 rfl,
   (retry_budget_invariant.2.2.1 "RERUN".data ⟨2, 0, true, false, [], []⟩).2.2 rfl,
   (retry_budget_invariant.2.2.2.1 "RERUN".data ⟨0, 2, false, true, [], []⟩).2.2 rfl,
   retry_budget_invariant.2.2.2.2.1 ["RERUN".data]
     (nodeCriticStep "RERUN".data initialSeq) (by decide)⟩

/-- Claim C2: a raw decision label none of whose keyword tests fires is
normalized to the conservative `AMBIGUOUS`, never to `ACCEPT`; the critic node
then treats it exactly like an explicit `RERUN` for routing (same `do_rerun`,
same counter, same successor); and normalization is total with values in the
closed verdict set, so it never fails the run. -/
theorem unrecognized_label_conservative (raw : List Char)
    (h : isRecognized raw = false) :
    normalizeDecision raw = "AMBIGUOUS".data ∧
    normalizeDecision raw ≠ "ACCEPT".data ∧
    (∀ st : SeqSt,
      (nodeCriticStep raw st).do_rerun = (nodeCriticStep "RERUN".data st).do_rerun ∧
      (nodeCriticStep raw st).rerun_count = (nodeCriticStep "RERUN".data st).rerun_count ∧
      routeAfterCritic (nodeCriticStep raw st) =
        routeAfterCritic (nodeCriticStep "RERUN".data st)) ∧
    (∀ raw2 : List Char, normalizeDecision raw2 ∈ criticLabels) := by
  have hamb : normalizeDecision raw = "AMBIGUOUS".data := by
    simp only [isRecognized, Bool.or_eq_false_iff] at h
    obtain ⟨⟨⟨⟨hA, hR⟩, hG⟩, hJ⟩, hM⟩ := h
    simp [normalizeDecision, hA, hR, hG, hJ, hM]
  have hrr : normalizeDecision "RERUN".data = "RERUN".data := by decide
  have e1 : decide ("AMBIGUOUS".data ∈
      ["RERUN".data, "REJECT".data, "AMBIGUOUS".data]) = true := by decide
  have e2 : decide ("RERUN".data ∈
      ["RERUN".data, "REJECT".data, "AMBIGUOUS".data]) = true := by decide
  refine ⟨hamb, by rw [hamb]; decide, fun st => ?_, fun raw2 => ?_⟩
  · simp [nodeCriticStep, routeAfterCritic, hamb, hrr, e1, e2]
  · simp only [normalizeDecision]
    split_ifs <;> decide

/-- Witness for C2: the unrecognized label `MAYBE` satisfies the hypothesis and
is normalized to `AMBIGUOUS`, with routing identical to an explicit `RERUN`. -/
theorem unrecognized_label_conservative_checked :
    isRecognized "MAYBE".data = false ∧
    normalizeDecision "MAYBE".data = "AMBIGUOUS".data ∧
    routeAfterCritic (nodeCriticStep "MAYBE".data initialSeq) =
      routeAfterCritic (nodeCriticStep "RERUN".data initialSeq) :=
  ⟨by decide, (unrecognized_label_conservative "MAYBE".data (by decide)).1,
   ((unrecognized_label_conservative "MAYBE".data (by decide)).2.2.1 initialSeq).2.2⟩

/-- The verdict stream of the C3 scenario: the critic answers `retry` twice and
then `proceed` (the source vocabulary for these canonical verdicts is `RERUN`
and `ACCEPT`). -/
def c3Verdicts : List (List Char) := ["RERUN".data, "RERUN".data, "ACCEPT".data]

/-- Claim C3: in a sequential run with `MAX_RERUNS = 2` whose critic verdicts are
`retry`, `retry`, `proceed`, the executor visits `report_draft` exactly 3 times
and `critic` exactly 3 times, the run ends at `report_final` (visited once),
and the retry counter over the three critic invocations is `1, 2, 2` with
cycles taken after the first two only: the final stage is reached on the
second retry attempt, no third retry occurs. -/
theorem scenario_two_retries_then_proceed :
    (seqTrace c3Verdicts).count "report_draft".data = 3 ∧
    (seqTrace c3Verdicts).count "critic".data = 3 ∧
    (seqTrace c3Verdicts).count "report_final".data = 1 ∧
    (seqTrace c3Verdicts).getLast? = some "report_final".data ∧
    (seqStates c3Verdicts initialSeq).map SeqSt.rerun_count = [1, 2, 2] ∧
    (seqStates c3Verdicts initialSeq).map SeqSt.do_rerun = [true, true, false] := by
  decide

/-- Claim C8: each router returns a label drawn from the declared key set of its
conditional edge's label map, for every state: the configuration-error branch
for an undeclared label is unreachable. -/
theorem routers_return_declared_labels :
    (∀ st : SeqSt, routeAfterCritic st ∈ labelsAfterCritic) ∧
    (∀ st : ParSt, routeVis st ∈ labelsVisEdge) ∧
    (∀ st : ParSt, routeRep st ∈ labelsRepEdge) := by
  refine ⟨fun st => ?_, fun st => ?_, fun st => ?_⟩
  · unfold routeAfterCritic labelsAfterCritic
    split_ifs <;> simp
  · unfold routeVis labelsVisEdge
    split_ifs <;> simp
  · unfold routeRep labelsRepEdge
    split_ifs <;> simp

/-- Claim C4: under every schedule and every pair of verdict streams, if the
assembler has run then both branches had individually settled (their routers
chose `assembler`) and the State Record contains both branches' pre-join
output fields, so a completed branch's fields are never absent at the join. -/
theorem join_barrier_waits (cs : List Choice) (vv rv : List (List Char))
    (h : (runPar cs (initParRun vv rv)).assemblerDone = true) :
    (runPar cs (initParRun vv rv)).visPhase = Phase.done ∧
    (runPar cs (initParRun vv rv)).repPhase = Phase.done ∧
    visualizerWrites ⊆ (runPar cs (initParRun vv rv)).written ∧
    reportDraftWrites ⊆ (runPar cs (initParRun vv rv)).written :=
  (parInv_run cs _ (parInv_init vv rv)).2.2 h

/-- Schedule used by the C4 witness: each branch runs its work stage and its
critic once, then the join fires. -/
def c4Schedule : List Choice :=
  [Choice.vis, Choice.vis, Choice.rep, Choice.rep, Choice.join]

/-- Verdict stream used by the C4 witness: one accepting verdict. -/
def c4Verdicts : List (List Char) := ["ACCEPT".data]

/-- Witness for C4: on a concrete schedule in which both critics accept, the
assembler runs and both branches' report fields are in the State Record. -/
theorem join_barrier_waits_checked :
    (runPar c4Schedule (initParRun c4Verdicts c4Verdicts)).assemblerDone = true ∧
    "vis_report_markdown" ∈ (runPar c4Schedule (initParRun c4Verdicts c4Verdicts)).written ∧
    "rep_report_markdown" ∈ (runPar c4Schedule (initParRun c4Verdicts c4Verdicts)).written :=
  ⟨by decide,
   (join_barrier_waits c4Schedule c4Verdicts c4Verdicts (by decide)).2.2.1 (by decide),
   (join_barrier_waits c4Schedule c4Verdicts c4Verdicts (by decide)).2.2.2 (by decide)⟩

/-- Claim C5, counterexample: the claim's reason — every post-fork field carries
its branch's namespace prefix — is false: the visualizer branch writes the
unprefixed keys `plots` and `plots_desc` after the fork (`_node_visualizer`,
orchestrator_parallel.py lines 48-53). -/
theorem vis_prefix_counterexample :
    "plots" ∈ visBranchWrites ∧
    "vis_".data.isPrefixOf "plots".data = false ∧
    visBranchWrites.all (fun k => "vis_".data.isPrefixOf k.data) = false := by decide

/-- Claim C5, amended: the post-fork write sets of the two branches are
disjoint, so concurrent branches never write the same key; every
reporter-branch key carries the `rep_` prefix, and every visualizer-branch key
either carries the `vis_` prefix or is one of the unprefixed visualizer
outputs `plots` / `plots_desc`, which only the visualizer branch writes. -/
theorem branch_write_sets_disjoint :
    visBranchWrites.all (fun k => !(decide (k ∈ repBranchWrites))) = true ∧
    repBranchWrites.all (fun k => "rep_".data.isPrefixOf k.data) = true ∧
    visBranchWrites.all
      (fun k => "vis_".data.isPrefixOf k.data || decide (k = "plots") ||
        decide (k = "plots_desc")) = true := by
  decide

/-- Claim C6: merging is key-wise overwrite (last-writer-wins), so applying the
same partial update twice in sequence yields the same State Record as applying
it once: no field accumulates instead of overwriting. -/
theorem merge_idempotent {V : Type} (u : PartialUpdate V) (s : StateRec V) :
    mergeUpdate u (mergeUpdate u s) = mergeUpdate u s ∧
    applyUpdates [u, u] s = applyUpdates [u] s := by
  have h : mergeUpdate u (mergeUpdate u s) = mergeUpdate u s := by
    funext k
    unfold mergeUpdate
    cases u k <;> rfl
  exact ⟨h, h⟩

lemma applyUpdates_preserves {V : Type} (us : List (PartialUpdate V)) :
    ∀ (s : StateRec V) (k : String) (v : V), s k = some v →
      ∃ w, applyUpdates us s k = some w := by
  induction us with
  | nil => exact fun s k v h => ⟨v, h⟩
  | cons u us ih =>
    intro s k v h
    cases hu : u k with
    | none => exact ih (mergeUpdate u s) k v (by simp [mergeUpdate, hu, h])
    | some w => exact ih (mergeUpdate u s) k w (by simp [mergeUpdate, hu])

/-- Claim C7: a field present in the State Record is never deleted by a merge:
after any single stage update and after any sequence of stage updates the
field is still present (with its old or a newer value). -/
theorem fields_never_deleted {V : Type} (us : List (PartialUpdate V))
    (s : StateRec V) (k : String) (v : V) (h : s k = some v) :
    (∀ u : PartialUpdate V, ∃ w, mergeUpdate u s k = some w) ∧
    (∃ w, applyUpdates us s k = some w) := by
  refine ⟨fun u => ?_, applyUpdates_preserves us s k v h⟩
  cases hu : u k with
  | none => exact ⟨v, by simp [mergeUpdate, hu, h]⟩
  | some w => exact ⟨w, by simp [mergeUpdate, hu]⟩

/-- State for the C7 witness: the `analysis` field is present. -/
def c7State : StateRec Nat := fun key => if key = "analysis" then some 1 else none

/-- Update for the C7 witness: a stage overwriting the `analysis` field. -/
def c7Update : PartialUpdate Nat := fun key => if key = "analysis" then some 2 else none

/-- Witness for C7: the `analysis` field survives two successive merges. -/
theorem fields_never_deleted_checked :
    c7State "analysis" = some 1 ∧
    (∃ w, applyUpdates [c7Update, c7Update] c7State "analysis" = some w) :=
  ⟨by simp [c7State],
   (fields_never_deleted [c7Update, c7Update] c7State "analysis" 1 (by simp [c7State])).2⟩

lemma runHandlers_append {V E : Type}
    (l1 l2 : List (StateRec V → Except E (PartialUpdate V))) (s : StateRec V) :
    runHandlers (l1 ++ l2) s =
      match runHandlers l1 s with
      | .error e => .error e
      | .ok s' => runHandlers l2 s' := by
  induction l1 generalizing s with
  | nil => rfl
  | cons f t ih =>
    simp only [List.cons_append, runHandlers]
    cases hf : f s with
    | error e => rfl
    | ok u => exact ih (mergeUpdate u s)

/-- Claim C9: when a stage handler raises after a prefix of successful stages,
the whole run aborts with exactly that error: the result does not depend on
the stages scheduled after the failing one (they are never invoked), the error
reaches the caller unmodified, and no partial State Record is returned. -/
theorem handler_error_aborts_run {V E : Type}
    (pre : List (StateRec V → Except E (PartialUpdate V)))
    (f : StateRec V → Except E (PartialUpdate V))
    (post post' : List (StateRec V → Except E (PartialUpdate V)))
    (s s1 : StateRec V) (e : E)
    (hpre : runHandlers pre s = Except.ok s1)
    (herr : f s1 = Except.error e) :
    runHandlers (pre ++ f :: post) s = Except.error e ∧
    runHandlers (pre ++ f :: post) s = runHandlers (pre ++ f :: post') s ∧
    ∀ st : StateRec V, runHandlers (pre ++ f :: post) s ≠ Except.ok st := by
  have key : ∀ rest, runHandlers (pre ++ f :: rest) s = Except.error e := by
    intro rest
    rw [runHandlers_append, hpre]
    simp only [runHandlers, herr]
  exact ⟨key post, by rw [key post, key post'], fun st => by rw [key post]; simp⟩

/-- Stage handler for the C9 witness: succeeds with an empty update. -/
def okHandler : StateRec Nat → Except String (PartialUpdate Nat) :=
  fun _ => Except.ok (fun _ => none)

/-- Stage handler for the C9 witness: raises. -/
def failHandler : StateRec Nat → Except String (PartialUpdate Nat) :=
  fun _ => Except.error "stage failure"

/-- Initial State Record for the C9 witness. -/
def emptyState : StateRec Nat := fun _ => none

/-- Witness for C9: a run whose second handler raises returns exactly that
error. -/
theorem handler_error_aborts_run_checked :
    runHandlers [okHandler, failHandler] emptyState = Except.error "stage failure" :=
  (handler_error_aborts_run [okHandler] failHandler [] [] emptyState
    (mergeUpdate (fun _ => none) emptyState) "stage failure" rfl rfl).1

lemma mem_of_alias_lookup (k v : List Char) (h : criticAliases.lookup k = some v) :
    v ∈ criticLabels := by
  simp only [criticAliases, List.lookup] at h
  repeat' split at h
  all_goals cases h
  all_goals decide

/-- Claim C10: for every input text, the decision component of
`CriticAgent._parse_response` lies in the closed set
{ACCEPT, REJECT, RERUN, AMBIGUOUS}: a recognized DECISION line or alias maps
into the set and every other input keeps the default `AMBIGUOUS`; the parser
is a total function, so no input makes it fail. -/
theorem parse_response_closed_set (text : List Char) :
    parseResponseDecision text ∈ criticLabels := by
  simp only [parseResponseDecision]
  split
  next g heq =>
    split
    next hmem => exact hmem
    next hnot =>
      split
      next v hv => exact mem_of_alias_lookup _ v hv
      next => decide
  next =>
    split_ifs <;> decide

end NLP2025
